import Mathlib

/-! Verification development for the WhatsApp chat-export parser
(`parse_whatsapp.py`).  The parsing core is embedded shallowly:

* Strings are Lean `String`s; character-level work happens on `String.data`.
* The two message-line regular expressions, the attachment token scanner and
  the `strptime` calls are embedded as the deterministic parsers they denote.
  The lines fed to the segmenter never contain `\n` (Python's
  universal-newline file iteration splits lines at every newline and
  `rstrip('\n')` removes the terminator), so `$` is end-of-string and `.`
  matches every remaining character; greedy/lazy subpattern choices are
  resolved below exactly as the backtracking engine resolves them on such
  lines.
* Python ASCII case folding and ASCII digits are modeled; the claims under
  study involve only ASCII data.
* The filesystem probe (`os.path.isfile`) and the OCR capability
  (PIL + pytesseract) are external effects; they enter as explicit function
  parameters (`onDisk`, `ocr`, `engine`) plus an availability flag.
* A Python exception aborting the run (`ValueError` out of `strptime`) is
  `none`/`Option`.
-/

namespace WhatsAppParse

/-- Python whitespace (`str.isspace` / regex `\s` for the characters that can
occur here): ASCII whitespace, the C1 separators, NBSP, the Unicode space
block, line/paragraph separators, narrow no-break space, etc. -/
def pySpaceChars : List Char :=
  [' ', '\t', '\n', '\x0b', '\x0c', '\r',
   '\x1c', '\x1d', '\x1e', '\x1f', '\x85', '\xa0',
   '\u1680', '\u2000', '\u2001', '\u2002', '\u2003', '\u2004', '\u2005',
   '\u2006', '\u2007', '\u2008', '\u2009', '\u200A',
   '\u2028', '\u2029', '\u202F', '\u205F', '\u3000']

def isPySpace (c : Char) : Bool := pySpaceChars.contains c

/-- ASCII decimal digit (regex `\d` on the ASCII data in scope). -/
def isDigitC (c : Char) : Bool := 48 ≤ c.toNat && c.toNat ≤ 57

def natOfDigits (cs : List Char) : Nat :=
  cs.foldl (fun a c => a * 10 + (c.toNat - 48)) 0

def digitChar (n : Nat) : Char := Char.ofNat (48 + n % 10)

/-- Two-digit zero-padded rendering (strftime `%m`, `%d`, `%H`, `%M`). -/
def padNat2 (n : Nat) : List Char := [digitChar (n / 10 % 10), digitChar (n % 10)]

/-- Four-digit rendering (strftime `%Y` on the years 1969-2068 produced here). -/
def padNat4 (n : Nat) : List Char :=
  [digitChar (n / 1000 % 10), digitChar (n / 100 % 10), digitChar (n / 10 % 10),
   digitChar (n % 10)]

def mkStr (cs : List Char) : String := ⟨cs⟩

/-- Right trim under Python whitespace. -/
def trimRight (l : List Char) : List Char := (l.reverse.dropWhile isPySpace).reverse

/-- Python `str.strip()`. -/
def pyStrip (l : List Char) : List Char := trimRight (l.dropWhile isPySpace)

/-- Python `str.split(sep)` for a one-character separator (keeps empties). -/
def splitOnChar (sep : Char) : List Char → List (List Char)
  | [] => [[]]
  | c :: r =>
    if c = sep then [] :: splitOnChar sep r
    else
      match splitOnChar sep r with
      | h :: t => (c :: h) :: t
      | [] => [[c]]

/-- Split a line at its first colon: `some (before, after)` when a colon
occurs (Python `segment.split(':', 1)` on a colon-bearing segment). -/
def splitAtFirstColon : List Char → Option (List Char × List Char)
  | [] => none
  | c :: r =>
    if c = ':' then some ([], r)
    else (splitAtFirstColon r).map (fun p => (c :: p.1, p.2))

/-- POSIX `%y` pivot used by Python `strptime`: 00-68 are 2000-2068 and
69-99 are 1969-1999. -/
def pivotYear (yy : Nat) : Nat := if yy ≤ 68 then 2000 + yy else 1900 + yy

def leapYear (y : Nat) : Bool := (y % 4 = 0 && y % 100 ≠ 0) || y % 400 = 0

def daysInMonth (y m : Nat) : Nat :=
  if m = 2 then (if leapYear y then 29 else 28)
  else if m = 4 ∨ m = 6 ∨ m = 9 ∨ m = 11 then 30
  else 31

/-- `strptime` `%m` component: one or two ASCII digits with value 1-12
(pattern `1[0-2]|0[1-9]|[1-9]` consuming the whole digit token). -/
def validMonthTok (t : List Char) : Bool :=
  t.all isDigitC && 1 ≤ t.length && t.length ≤ 2
    && 1 ≤ natOfDigits t && natOfDigits t ≤ 12

/-- `strptime` `%d` component: one or two ASCII digits with value 1-31
(pattern `3[01]|[12]\d|0[1-9]|[1-9]`); calendar validity is checked later. -/
def validDayTok (t : List Char) : Bool :=
  t.all isDigitC && 1 ≤ t.length && t.length ≤ 2
    && 1 ≤ natOfDigits t && natOfDigits t ≤ 31

/-- `strptime` `%y` component: exactly two ASCII digits (pattern `\d\d`). -/
def validYearTok (t : List Char) : Bool := t.all isDigitC && t.length = 2

/-- Python `datetime.strptime(s, "%m/%d/%y")` (month first) or
`"%d/%m/%y"` (day first), returning the `(year, month, day)` of the
resulting date; `none` is the `ValueError`.  The string must be exactly
`token/token/token`, the components must satisfy the `strptime` patterns,
and the day must exist in the pivoted year's month. -/
def strptimeCore (mTok dTok yTok : List Char) : Option (Nat × Nat × Nat) :=
  if validMonthTok mTok && validDayTok dTok && validYearTok yTok then
    if natOfDigits dTok ≤ daysInMonth (pivotYear (natOfDigits yTok)) (natOfDigits mTok) then
      some (pivotYear (natOfDigits yTok), natOfDigits mTok, natOfDigits dTok)
    else none
  else none

def strptimeDate (monthFirst : Bool) (cs : List Char) : Option (Nat × Nat × Nat) :=
  match splitOnChar '/' cs with
  | [a, b, c] =>
    strptimeCore (if monthFirst then a else b) (if monthFirst then b else a) c
  | _ => none

/-- strftime `"%Y-%m-%d"` on a parsed date. -/
def formatIso : Nat × Nat × Nat → String
  | (y, m, d) => mkStr (padNat4 y ++ '-' :: padNat2 m ++ '-' :: padNat2 d)

/-- `_convert_date`: month-first `strptime`, retried day-first on failure,
formatted as ISO `YYYY-MM-DD`; `none` is the propagated `ValueError`
(the spec's `MalformedTimestamp`). -/
def convert_date (s : String) : Option String :=
  match strptimeDate true s.data with
  | some r => some (formatIso r)
  | none =>
    match strptimeDate false s.data with
    | some r => some (formatIso r)
    | none => none

/-- `_convert_time`: replace narrow no-break spaces, strip, uppercase, then
`strptime "%I:%M %p"` and render `"%H:%M"`.  The `%I` hour is 1-12 over one
or two digits, `%M` is one or two digits with value 0-59, the format's
space is `\s+`, and `%p` is `AM`/`PM` case-insensitively; nothing may
follow.  `none` is the propagated `ValueError`. -/
def convert_time (s : String) : Option String :=
  let cleaned :=
    (pyStrip (s.data.map (fun c => if c = '\u202F' then ' ' else c))).map Char.toUpper
  let h := cleaned.takeWhile isDigitC
  let r1 := cleaned.dropWhile isDigitC
  if h.length = 0 ∨ 2 < h.length then none
  else
    let hv := natOfDigits h
    if hv = 0 ∨ 12 < hv then none
    else
      match r1 with
      | ':' :: r2 =>
        let mnT := r2.takeWhile isDigitC
        let r3 := r2.dropWhile isDigitC
        if mnT.length = 0 ∨ 2 < mnT.length then none
        else
          let mv := natOfDigits mnT
          if 59 < mv then none
          else
            let ws := r3.takeWhile isPySpace
            let r4 := r3.dropWhile isPySpace
            if ws.length = 0 then none
            else
              match r4 with
              | [p1, p2] =>
                if (p1 = 'A' ∨ p1 = 'a' ∨ p1 = 'P' ∨ p1 = 'p')
                    ∧ (p2 = 'M' ∨ p2 = 'm') then
                  let h24 :=
                    if p1 = 'P' ∨ p1 = 'p' then (if hv = 12 then 12 else hv + 12)
                    else (if hv = 12 then 0 else hv)
                  some (mkStr (padNat2 h24 ++ ':' :: padNat2 mv))
                else none
              | _ => none
      | _ => none

/-- Common prefix of the two line grammars
`^(\d{1,2}/\d{1,2}/\d{2}),\s+(\d{1,2}:\d{2}\s*[APap][Mm])\s+-`: returns
the date group, the time group (internal whitespace included, as the
regex captures it) and the remainder of the line after the hyphen.
Each `\d{1,2}` must consume its whole maximal digit run (the following
literal cannot match a digit), so maximal-run scanning is exact. -/
def matchHeader (cs : List Char) : Option (List Char × List Char × List Char) :=
  let d1 := cs.takeWhile isDigitC
  let r1 := cs.dropWhile isDigitC
  if d1.length = 0 ∨ 2 < d1.length then none
  else
    match r1 with
    | '/' :: r2 =>
      let d2 := r2.takeWhile isDigitC
      let r3 := r2.dropWhile isDigitC
      if d2.length = 0 ∨ 2 < d2.length then none
      else
        match r3 with
        | '/' :: r4 =>
          let d3 := r4.takeWhile isDigitC
          let r5 := r4.dropWhile isDigitC
          if d3.length ≠ 2 then none
          else
            match r5 with
            | ',' :: r6 =>
              let ws1 := r6.takeWhile isPySpace
              let r7 := r6.dropWhile isPySpace
              if ws1.length = 0 then none
              else
                let h1 := r7.takeWhile isDigitC
                let r8 := r7.dropWhile isDigitC
                if h1.length = 0 ∨ 2 < h1.length then none
                else
                  match r8 with
                  | ':' :: r9 =>
                    let mn := r9.takeWhile isDigitC
                    let r10 := r9.dropWhile isDigitC
                    if mn.length ≠ 2 then none
                    else
                      let ws2 := r10.takeWhile isPySpace
                      let r11 := r10.dropWhile isPySpace
                      match r11 with
                      | a :: p :: r12 =>
                        if (a = 'A' ∨ a = 'P' ∨ a = 'a' ∨ a = 'p')
                            ∧ (p = 'M' ∨ p = 'm') then
                          let ws3 := r12.takeWhile isPySpace
                          let r13 := r12.dropWhile isPySpace
                          if ws3.length = 0 then none
                          else
                            match r13 with
                            | '-' :: r14 =>
                              some (d1 ++ '/' :: d2 ++ '/' :: d3,
                                    h1 ++ ':' :: mn ++ ws2 ++ [a, p],
                                    r14)
                            | _ => none
                        else none
                      | _ => none
                  | _ => none
            | _ => none
        | _ => none
    | _ => none

/-- `system_re`: after the shared header and the hyphen, `\s+(.*)$` — at
least one whitespace character, and the text group is the rest of the line
(the greedy `\s+` consumes the whole whitespace run because `.*` always
matches the remainder). -/
def matchSystemL (cs : List Char) : Option (List Char × List Char × List Char) :=
  match matchHeader cs with
  | some (d, t, rest) =>
    if (rest.takeWhile isPySpace).length = 0 then none
    else some (d, t, rest.dropWhile isPySpace)
  | none => none

/-- `regular_re`: after the shared header and the hyphen,
`\s+([^:]+?):\s*(.*)$`.  With a maximal whitespace run of length `W` after
the hyphen, the backtracking engine tries `\s+` lengths `W, W-1, …, 1`, and
for each the lazy sender group extends to the first colon after it.  Hence:
if the first colon of the post-whitespace text sits at index `j ≥ 1`, the
sender is the text up to it; if the text begins with the colon itself, the
only way to place a non-empty sender is to give back one whitespace
character (needs `W ≥ 2`), making the sender that single space; otherwise
no match.  The text group drops the whitespace after the colon (`\s*` is
greedy and `(.*)$` always matches). -/
def matchRegularL (cs : List Char) :
    Option (List Char × List Char × List Char × List Char) :=
  match matchHeader cs with
  | some (d, t, rest) =>
    let ws := rest.takeWhile isPySpace
    if ws.length = 0 then none
    else
      match splitAtFirstColon (rest.dropWhile isPySpace) with
      | some (before, after) =>
        if 1 ≤ before.length then some (d, t, before, after.dropWhile isPySpace)
        else if 2 ≤ ws.length then
          some (d, t, [ws.getLastD ' '], after.dropWhile isPySpace)
        else none
      | none => none
  | none => none

structure Attachment where
  filename : String
  ocr_text : String
deriving DecidableEq, Repr

structure Message where
  date : String
  time : String
  sender : String
  text : String
  attachments : List Attachment
deriving DecidableEq, Repr

/-- One iteration of the `parse_chat` reading loop: try `regular_re`, then
`system_re`, else treat the line as a continuation.  The state is
`(current_msg, messages)`; `none` is the aborting `ValueError` from
`_convert_date`/`_convert_time`.  On a header match the open message is
appended to the output before the new one opens. -/
def chatStep : Option Message × List Message → String →
    Option (Option Message × List Message)
  | (cur, out), line =>
    match matchRegularL line.data with
    | some (d, t, s, b) =>
      match convert_date (mkStr d), convert_time (mkStr t) with
      | some dI, some tI =>
        some (some { date := dI, time := tI, sender := mkStr (pyStrip s),
                     text := mkStr (pyStrip b), attachments := [] },
              out ++ cur.toList)
      | _, _ => none
    | none =>
      match matchSystemL line.data with
      | some (d, t, b) =>
        match convert_date (mkStr d), convert_time (mkStr t) with
        | some dI, some tI =>
          some (some { date := dI, time := tI, sender := "System",
                       text := mkStr (pyStrip b), attachments := [] },
                out ++ cur.toList)
        | _, _ => none
      | none =>
        match cur with
        | some m => some (some { m with text := m.text ++ "\n" ++ line }, out)
        | none => some (none, out)

/-- The message-segmentation phase of `parse_chat`: fold `chatStep` over the
lines, then append the message still open at end of input. -/
def segmentLines (lines : List String) : Option (List Message) :=
  match lines.foldlM chatStep ((none : Option Message), ([] : List Message)) with
  | some (cur, out) => some (out ++ cur.toList)
  | none => none

/-- Character class `[A-Za-z0-9_\-]` of `attach_re`. -/
def isWordChar (c : Char) : Bool := c.isAlpha || isDigitC c || c = '_' || c = '-'

/-- The `attach_re` extension alternation, in source order; Python's ordered
alternation tries each case-insensitive literal in turn (`jpg` before
`jpeg`), matching it as a prefix of the remaining text. -/
def attachExts : List (List Char) :=
  ["jpg".data, "jpeg".data, "png".data, "gif".data, "bmp".data,
   "webp".data, "heic".data, "opus".data, "mp4".data]

/-- Try the extension alternation at the head of `cs`: yields the matched
characters as written in the text plus the remainder. -/
def matchExtAt : List (List Char) → List Char → Option (List Char × List Char)
  | [], _ => none
  | e :: es, cs =>
    if (cs.take e.length).map Char.toLower = e then
      some (cs.take e.length, cs.drop e.length)
    else matchExtAt es cs

/-- One anchored attempt of
`([A-Za-z0-9_\-]+\.(jpg|jpeg|png|gif|bmp|webp|heic|opus|mp4))` (IGNORECASE)
at the head of `cs`.  The greedy `+` must consume the whole word run (a dot
is not a word character, so shorter runs cannot be followed by `\.`), then
a literal dot and an extension from the ordered alternation. -/
def tryMatchAt (cs : List Char) : Option (List Char × List Char) :=
  let w := cs.takeWhile isWordChar
  let r1 := cs.dropWhile isWordChar
  if w.length = 0 then none
  else
    match r1 with
    | '.' :: r2 =>
      match matchExtAt attachExts r2 with
      | some (e, rest) => some (w ++ '.' :: e, rest)
      | none => none
    | _ => none

/-- `attach_re.finditer`: scan left to right, restarting after each
non-overlapping match.  The fuel `cs.length` is exact: every step either
drops the leading character or consumes a whole match, which contains that
character, so each recursive call strictly shortens the list. -/
def findAttachmentsAux : Nat → List Char → List (List Char)
  | 0, _ => []
  | _, [] => []
  | fuel + 1, c :: rest =>
    match tryMatchAt (c :: rest) with
    | some (f, rem) => f :: findAttachmentsAux fuel rem
    | none => findAttachmentsAux fuel rest

def findAttachments (cs : List Char) : List (List Char) :=
  findAttachmentsAux cs.length cs

/-- Image-extension test of the attachment loop:
`fname.lower().endswith(('.jpg', '.jpeg', '.png', '.gif', '.bmp', '.webp',
'.heic'))` — `opus` and `mp4` are media but not OCR targets. -/
def isImageName (fname : String) : Bool :=
  [".jpg".data, ".jpeg".data, ".png".data, ".gif".data, ".bmp".data,
   ".webp".data, ".heic".data].any
    (fun e => e.isSuffixOf (fname.data.map Char.toLower))

/-- Body of the attachment loop for one matched filename: probe the flat
extraction directory (`onDisk`), and call the OCR routine only when the
file exists and the name has an image extension; otherwise `ocr_text` stays
empty. -/
def resolveAttachment (onDisk : String → Bool) (ocr : String → String)
    (fname : String) : Attachment :=
  if onDisk fname && isImageName fname then { filename := fname, ocr_text := ocr fname }
  else { filename := fname, ocr_text := "" }

/-- Call-counting twin of `resolveAttachment`: the second component is the
number of OCR invocations performed for this attachment. -/
def resolveAttachmentCount (onDisk : String → Bool) (ocr : String → String)
    (fname : String) : Attachment × Nat :=
  if onDisk fname && isImageName fname then
    ({ filename := fname, ocr_text := ocr fname }, 1)
  else ({ filename := fname, ocr_text := "" }, 0)

/-- Attachment resolution for one message: scan its text, resolve every
token, and overwrite the `attachments` field only when the list is
non-empty (`if attachments: msg['attachments'] = attachments`). -/
def attachMessage (onDisk : String → Bool) (ocr : String → String)
    (m : Message) : Message :=
  let atts := (findAttachments m.text.data).map
    (fun f => resolveAttachment onDisk ocr (mkStr f))
  if atts.isEmpty then m else { m with attachments := atts }

/-- The attachment pass of `parse_chat` over the sealed message list. -/
def attachPass (onDisk : String → Bool) (ocr : String → String)
    (msgs : List Message) : List Message :=
  msgs.map (attachMessage onDisk ocr)

/-- `_perform_ocr`: if PIL or pytesseract is missing (`available = false`),
return the empty string at once; otherwise run the image decode and the
recognizer — abstracted as `engine`, whose `error` outcome stands for any
exception in the `try` block — returning the recognized text stripped, and
mapping every exception to the empty string. -/
def perform_ocr (available : Bool) (engine : String → Except String String)
    (path : String) : String :=
  if available = false then ""
  else
    match engine path with
    | Except.ok t => mkStr (pyStrip t.data)
    | Except.error _ => ""

/-- Key normalization of `extract_details`: lowercase, then drop every
character outside `a`-`z` (`re.sub(r'[^a-z]', '', key_raw.lower())`). -/
def normKey (k : List Char) : List Char :=
  (k.map Char.toLower).filter (fun c => 97 ≤ c.toNat && c.toNat ≤ 122)

/-- `leadsWith n h`: `n` is a prefix of `h`. -/
def leadsWith : List Char → List Char → Bool
  | [], _ => true
  | _ :: _, [] => false
  | a :: as, b :: bs => a = b && leadsWith as bs

/-- Python substring containment `needle in haystack` (contiguous; the
empty needle is contained everywhere). -/
def containsSub (needle : List Char) : List Char → Bool
  | [] => leadsWith needle []
  | c :: t => leadsWith needle (c :: t) || containsSub needle t

/-- The ordered `elif` chain classifying a normalized key; substring
containment, first match wins. -/
def ruleKey (k : List Char) : Option String :=
  if containsSub "loan".data k && containsSub "num".data k then some "loan_num"
  else if containsSub "loan".data k && containsSub "no".data k then some "loan_num"
  else if containsSub "name".data k then some "name"
  else if containsSub "phone".data k || containsSub "mobile".data k then some "phone_number"
  else if containsSub "loan".data k && containsSub "amount".data k then some "loan_amount"
  else if containsSub "disbursal".data k && containsSub "date".data k then some "disbursal_date"
  else if containsSub "repayment".data k && containsSub "amt".data k then some "repayment_amt"
  else if containsSub "repayment".data k && containsSub "amount".data k then some "repayment_amt"
  else if containsSub "repayment".data k && containsSub "date".data k then some "repayment_date"
  else if containsSub "receive".data k && containsSub "amt".data k then some "receive_amt"
  else if containsSub "receive".data k && containsSub "amount".data k then some "receive_amt"
  else if containsSub "receive".data k && containsSub "date".data k then some "receive_date"
  else if containsSub "status".data k then some "status"
  else if containsSub "reloan".data k then some "reloan"
  else none

/-- One segment of the `extract_details` loop: lines without a colon are
skipped; otherwise split at the first colon, strip the key (skipping empty
keys), compute the value as `value_part.strip().lstrip('-').strip()`
(`lstrip` removes every leading hyphen), and classify the normalized key. -/
def lineToKV (seg : List Char) : Option (String × String) :=
  match splitAtFirstColon seg with
  | none => none
  | some (kp, vp) =>
    let keyRaw := pyStrip kp
    if keyRaw.length = 0 then none
    else
      match ruleKey (normKey keyRaw) with
      | some canonical =>
        some (canonical,
              mkStr (pyStrip ((pyStrip vp).dropWhile (fun c => c = '-'))))
      | none => none

/-- Python `dict` assignment `d[k] = v`: replace in place when the key is
present (keys are unique by construction), append otherwise. -/
def dictSet : List (String × String) → String → String → List (String × String)
  | [], k, v => [(k, v)]
  | (k', v') :: r, k, v =>
    if k' = k then (k, v) :: r else (k', v') :: dictSet r k v

def detailStep (d : List (String × String)) (seg : List Char) :
    List (String × String) :=
  match lineToKV seg with
  | some (k, v) => dictSet d k v
  | none => d

/-- `extract_details`: scan the message text line by line, recording the
recognized key/value pairs in insertion order with later values
overwriting earlier ones. -/
def extract_details (text : String) : List (String × String) :=
  (splitOnChar '\n' text.data).foldl detailStep []

/-- Association-list lookup used to observe the extracted dictionary. -/
def lookupA : List (String × String) → String → Option String
  | [], _ => none
  | (k, v) :: r, q => if k = q then some v else lookupA r q

/-- Value of the last pair carrying a given key, the reference semantics of
last-write-wins. -/
def lastValKV : List (String × String) → String → Option String
  | [], _ => none
  | (k, v) :: rest, q =>
    match lastValKV rest q with
    | some w => some w
    | none => if k = q then some v else none

/-- One spreadsheet row for a message: the six fixed leading columns, then
one `collection_details_`-prefixed column per extracted key. -/
def rowOfMsg (m : Message) : List (String × String) :=
  [("date", m.date), ("time", m.time), ("sender", m.sender), ("text", m.text),
   ("attachments", String.intercalate ", " (m.attachments.map Attachment.filename)),
   ("ocr_text", String.intercalate " || "
     ((m.attachments.filter (fun a => a.ocr_text != "")).map Attachment.ocr_text))]
  ++ (extract_details m.text).map (fun p => ("collection_details_" ++ p.1, p.2))

def buildRows (msgs : List Message) : List (List (String × String)) :=
  msgs.map rowOfMsg

/-- The placeholder row written when the DataFrame would otherwise be
empty. -/
def emptyRow : List (String × String) :=
  [("date", ""), ("time", ""), ("sender", ""), ("text", ""),
   ("attachments", ""), ("ocr_text", "")]

/-- The tabular output: one row per message, or the single placeholder row
when the run produced no messages (`if df.empty`). -/
def finalTable (msgs : List Message) : List (List (String × String)) :=
  let rows := buildRows msgs
  if rows.isEmpty then [emptyRow] else rows

/-- The parsing core of `parse_chat` over the transcript's lines: segment,
resolve attachments (with OCR), and build both output views.  Archive
extraction, transcript location and the JSON/Excel writers are I/O at the
boundary and are outside the model; `none` is the aborting
`MalformedTimestamp`. -/
def parse_chat (onDisk : String → Bool) (ocr : String → String)
    (lines : List String) :
    Option (List Message × List (List (String × String))) :=
  match segmentLines lines with
  | some msgs =>
    let msgs2 := attachPass onDisk ocr msgs
    some (msgs2, finalTable msgs2)
  | none => none

theorem dropWhile_self (p : Char → Bool) (l : List Char) :
    (l.dropWhile p).dropWhile p = l.dropWhile p := by
  induction l with
  | nil => rfl
  | cons c t ih =>
    by_cases h : p c
    · simp [List.dropWhile, h, ih]
    · simp [List.dropWhile, h]

theorem head_dropWhile_not (p : Char → Bool) (l : List Char) (c : Char)
    (h : (l.dropWhile p).head? = some c) : p c = false := by
  induction l with
  | nil => simp [List.dropWhile] at h
  | cons a t ih =>
    by_cases ha : p a
    · simp [List.dropWhile, ha] at h
      exact ih h
    · simp [List.dropWhile, ha] at h
      simp [← h, Bool.not_eq_true] at ha ⊢
      exact ha

theorem trimRight_self (l : List Char) : trimRight (trimRight l) = trimRight l := by
  simp [trimRight, dropWhile_self]

theorem trimRight_append_rest (l : List Char) :
    trimRight l ++ (l.reverse.takeWhile isPySpace).reverse = l := by
  rw [trimRight, ← List.reverse_append, List.takeWhile_append_dropWhile,
    List.reverse_reverse]

theorem dropWhile_trimRight (l : List Char)
    (h : ∀ c, l.head? = some c → isPySpace c = false) :
    (trimRight l).dropWhile isPySpace = trimRight l := by
  cases htr : trimRight l with
  | nil => rfl
  | cons c r =>
    have hl : l = c :: (r ++ (l.reverse.takeWhile isPySpace).reverse) := by
      conv_lhs => rw [← trimRight_append_rest l]
      rw [htr]
      rfl
    have hc : isPySpace c = false := h c (by rw [hl]; rfl)
    simp [List.dropWhile, hc]

theorem pyStrip_self (l : List Char) : pyStrip (pyStrip l) = pyStrip l := by
  show trimRight (List.dropWhile isPySpace (trimRight (l.dropWhile isPySpace)))
      = trimRight (l.dropWhile isPySpace)
  rw [dropWhile_trimRight (l.dropWhile isPySpace)
    (fun c hc => head_dropWhile_not isPySpace l c hc)]
  exact trimRight_self _

theorem lookupA_dictSet (d : List (String × String)) (k v q : String) :
    lookupA (dictSet d k v) q = if q = k then some v else lookupA d q := by
  induction d with
  | nil =>
    by_cases h : q = k
    · simp [dictSet, lookupA, h]
    · have h2 : ¬ k = q := fun hh => h (Eq.symm hh)
      simp [dictSet, lookupA, h, h2]
  | cons hd tl ih =>
    by_cases h1 : hd.1 = k
    · by_cases h2 : q = k
      · simp [dictSet, lookupA, h1, h2]
      · have h3 : ¬ (hd.1 = q) := fun hh => h2 (by rw [← hh, h1])
        have h4 : ¬ (k = q) := fun hh => h2 (Eq.symm hh)
        cases hd with
        | mk a b => simp_all [dictSet, lookupA]
    · by_cases h2 : hd.1 = q
      · have h3 : ¬ (q = k) := fun hh => h1 (by rw [h2, hh])
        cases hd with
        | mk a b => simp_all [dictSet, lookupA]
      · cases hd with
        | mk a b => simp_all [dictSet, lookupA]

theorem lookupA_foldl_detailStep (segs : List (List Char))
    (d : List (String × String)) (q : String) :
    lookupA (segs.foldl detailStep d) q
      = match lastValKV (segs.filterMap lineToKV) q with
        | some w => some w
        | none => lookupA d q := by
  induction segs generalizing d with
  | nil => simp [lastValKV]
  | cons s rest ih =>
    cases hkv : lineToKV s with
    | none =>
      simp only [List.foldl_cons, List.filterMap_cons, hkv, detailStep]
      exact ih d
    | some p =>
      cases p with
      | mk k v =>
        simp only [List.foldl_cons, List.filterMap_cons, hkv, detailStep]
        rw [ih (dictSet d k v)]
        simp only [lastValKV]
        cases lastValKV (rest.filterMap lineToKV) q with
        | some w => rfl
        | none =>
          rw [lookupA_dictSet]
          by_cases h : q = k
          · simp [h]
          · have h2 : ¬ k = q := fun hh => h (Eq.symm hh)
            simp [h, h2]

theorem natOfDigits_two_le_99 (t : List Char) (hlen : t.length = 2)
    (hd : t.all isDigitC = true) : natOfDigits t ≤ 99 := by
  match t, hlen with
  | [c1, c2], _ =>
    simp only [List.all_cons, List.all_nil, Bool.and_true, Bool.and_eq_true,
      isDigitC, decide_eq_true_eq] at hd
    simp only [natOfDigits, List.foldl_cons, List.foldl_nil]
    omega

theorem strptimeCore_year (mTok dTok yTok : List Char) (y m d : Nat)
    (h : strptimeCore mTok dTok yTok = some (y, m, d)) :
    ∃ yy, yy ≤ 99 ∧ y = pivotYear yy
      ∧ pivotYear yy = (if yy ≤ 68 then 2000 + yy else 1900 + yy) := by
  unfold strptimeCore at h
  split at h
  next hvalid =>
    split at h
    next hday =>
      simp only [Option.some.injEq, Prod.mk.injEq] at h
      have hyear : validYearTok yTok = true := by
        simp only [Bool.and_eq_true] at hvalid
        exact hvalid.2
      have hcc : natOfDigits yTok ≤ 99 := by
        simp only [validYearTok, Bool.and_eq_true, decide_eq_true_eq] at hyear
        exact natOfDigits_two_le_99 yTok hyear.2 hyear.1
      exact ⟨natOfDigits yTok, hcc, h.1.symm, rfl⟩
    next => simp at h
  next => simp at h

/-- Claim C1: the segmenter tries the authored-line grammar before the
system-line grammar (the first example line matches both, yet parses as
authored), a line matching neither grammar is appended to the open
message's text after an internal newline, a header match seals the open
message before opening the new one, and the three-line example yields
exactly the two expected Messages, the first with text `"Hello\nworld"`. -/
theorem claim_C1 :
    (segmentLines ["9/8/25, 5:58 PM - John Doe: Hello", "world",
        "9/8/25, 5:59 PM - Jane: Bye"]
      = some [⟨"2025-09-08", "17:58", "John Doe", "Hello\nworld", []⟩,
              ⟨"2025-09-08", "17:59", "Jane", "Bye", []⟩])
    ∧ matchSystemL "9/8/25, 5:58 PM - John Doe: Hello".data ≠ none
    ∧ (∀ (m : Message) (out : List Message) (line : String),
        matchRegularL line.data = none → matchSystemL line.data = none →
        chatStep (some m, out) line
          = some (some { m with text := m.text ++ "\n" ++ line }, out))
    ∧ (∀ (m : Message) (out : List Message) (line : String)
        (d t s b : List Char) (dI tI : String),
        matchRegularL line.data = some (d, t, s, b) →
        convert_date (mkStr d) = some dI → convert_time (mkStr t) = some tI →
        chatStep (some m, out) line
          = some (some { date := dI, time := tI, sender := mkStr (pyStrip s),
                         text := mkStr (pyStrip b), attachments := [] },
                  out ++ [m])) := by
  refine ⟨by decide, by decide, ?_, ?_⟩
  · intro m out line h1 h2
    simp [chatStep, h1, h2]
  · intro m out line d t s b dI tI h1 h2 h3
    simp [chatStep, h1, h2, h3]

/-- Witness for C1: the continuation equation and the seal-then-open
equation at concrete inputs. -/
theorem claim_C1_witness :
    (chatStep (some ⟨"2025-09-08", "17:58", "J", "Hi", []⟩, []) "world"
      = some (some ⟨"2025-09-08", "17:58", "J", "Hi\nworld", []⟩, []))
    ∧ (chatStep (some ⟨"2025-09-08", "17:58", "J", "Hi", []⟩, [])
        "9/8/25, 5:59 PM - Jane: Bye"
      = some (some ⟨"2025-09-08", "17:59", "Jane", "Bye", []⟩,
              [⟨"2025-09-08", "17:58", "J", "Hi", []⟩])) := by
  constructor
  · have h := claim_C1.2.2.1 ⟨"2025-09-08", "17:58", "J", "Hi", []⟩ []
      "world" (by decide) (by decide)
    rw [h]; decide
  · have h := claim_C1.2.2.2 ⟨"2025-09-08", "17:58", "J", "Hi", []⟩ []
      "9/8/25, 5:59 PM - Jane: Bye" "9/8/25".data "5:59 PM".data
      "Jane".data "Bye".data "2025-09-08" "17:59"
      (by decide) (by decide) (by decide)
    rw [h]; decide

/-- Claim C2: the detail extractor splits each line at its first colon,
normalizes and classifies the key, discards unmatched lines, and keeps
only the last value per canonical key: the two concrete examples hold, and
in general a lookup in the extracted dictionary equals the value of the
last classified line carrying that key. -/
theorem claim_C2 :
    extract_details "Loan No: 123\nName: Asha\nhttp://x.com/a:b"
      = [("loan_num", "123"), ("name", "Asha")]
    ∧ extract_details "Status: open\nStatus: closed" = [("status", "closed")]
    ∧ ∀ (text : String) (q : String),
        lookupA (extract_details text) q
          = lastValKV ((splitOnChar '\n' text.data).filterMap lineToKV) q := by
  refine ⟨by decide, by decide, ?_⟩
  intro text q
  rw [extract_details, lookupA_foldl_detailStep]
  cases h : lastValKV ((splitOnChar '\n' text.data).filterMap lineToKV) q <;>
    simp [h, lookupA]

/-- Counterexample to claim C3 as stated: Python's `%y` uses the POSIX
pivot, so the two-digit year 99 becomes 1999, not 2000 + 99 = 2099. -/
theorem claim_C3_counterexample :
    convert_date "9/8/99" = some "1999-09-08"
    ∧ ("1999-09-08" : String) ≠ "2099-09-08" := by
  exact ⟨by decide, by decide⟩

/-- Claim C3 as amended: `convert_date` attempts month-first parsing and
falls back to day-first exactly when month-first fails; it fails if and
only if neither order parses; every parsed year comes from a two-digit
token `yy` through the POSIX pivot (2000 + yy for yy ≤ 68, 1900 + yy
for 69 ≤ yy ≤ 99); and the output is zero-padded ISO, e.g.
`"9/8/25"` yields `"2025-09-08"`. -/
theorem claim_C3_amended :
    (∀ (s : String) (r : Nat × Nat × Nat),
      strptimeDate true s.data = some r → convert_date s = some (formatIso r))
    ∧ (∀ (s : String) (r : Nat × Nat × Nat),
      strptimeDate true s.data = none → strptimeDate false s.data = some r →
      convert_date s = some (formatIso r))
    ∧ (∀ s : String, convert_date s = none ↔
        (strptimeDate true s.data = none ∧ strptimeDate false s.data = none))
    ∧ (∀ (s : String) (y m d : Nat) (o : Bool),
        strptimeDate o s.data = some (y, m, d) →
        ∃ yy, yy ≤ 99 ∧ y = pivotYear yy
          ∧ pivotYear yy = (if yy ≤ 68 then 2000 + yy else 1900 + yy))
    ∧ convert_date "9/8/25" = some "2025-09-08" := by
  refine ⟨?_, ?_, ?_, ?_, by decide⟩
  · intro s r h
    simp [convert_date, h]
  · intro s r h1 h2
    simp [convert_date, h1, h2]
  · intro s
    constructor
    · intro h
      unfold convert_date at h
      cases h1 : strptimeDate true s.data with
      | some r => rw [h1] at h; simp at h
      | none =>
        rw [h1] at h
        cases h2 : strptimeDate false s.data with
        | some r => rw [h2] at h; simp at h
        | none => exact ⟨rfl, rfl⟩
    · intro hh
      unfold convert_date
      rw [hh.1, hh.2]
  · intro s y m d o h
    unfold strptimeDate at h
    split at h
    next => exact strptimeCore_year _ _ _ y m d h
    next => simp at h

/-- Witness for C3: the month-first branch applied at `"9/8/25"`. -/
theorem claim_C3_witness :
    convert_date "9/8/25" = some (formatIso (2025, 9, 8)) := by
  exact claim_C3_amended.1 "9/8/25" (2025, 9, 8) (by decide)

theorem resolveAttachment_filename (onDisk : String → Bool) (ocr : String → String)
    (fname : String) : (resolveAttachment onDisk ocr fname).filename = fname := by
  unfold resolveAttachment
  split <;> rfl

theorem isEmpty_map_eq {α β : Type} (f : α → β) (l : List α) :
    (l.map f).isEmpty = l.isEmpty := by
  cases l <;> rfl

theorem finalTable_length (msgs : List Message) :
    (finalTable msgs).length = if msgs.length = 0 then 1 else msgs.length := by
  cases msgs with
  | nil => rfl
  | cons m r => simp [finalTable, buildRows]

/-- Claim C4: for every attachment, OCR runs exactly when the file exists on
disk and the name has an image extension — and then exactly once — while in
every other case the attachment keeps its filename and gets an empty
`ocr_text`; moreover every scanned token is recorded, filename preserved. -/
theorem claim_C4 :
    ∀ (onDisk : String → Bool) (ocr : String → String) (fname : String) (m : Message),
    (resolveAttachment onDisk ocr fname).filename = fname
    ∧ (onDisk fname = true → isImageName fname = true →
        (resolveAttachment onDisk ocr fname).ocr_text = ocr fname)
    ∧ (onDisk fname = false ∨ isImageName fname = false →
        (resolveAttachment onDisk ocr fname).ocr_text = "")
    ∧ (resolveAttachmentCount onDisk ocr fname).2 ≤ 1
    ∧ ((resolveAttachmentCount onDisk ocr fname).2 = 1 ↔
        (onDisk fname = true ∧ isImageName fname = true))
    ∧ (resolveAttachmentCount onDisk ocr fname).1 = resolveAttachment onDisk ocr fname
    ∧ ((attachMessage onDisk ocr m).attachments.map Attachment.filename
        = if (findAttachments m.text.data).isEmpty then
            m.attachments.map Attachment.filename
          else (findAttachments m.text.data).map mkStr) := by
  intro onDisk ocr fname m
  refine ⟨resolveAttachment_filename onDisk ocr fname, ?_, ?_, ?_, ?_, ?_, ?_⟩
  · intro h1 h2
    simp [resolveAttachment, h1, h2]
  · intro h
    rcases h with h | h <;> simp [resolveAttachment, h]
  · unfold resolveAttachmentCount
    split <;> simp
  · unfold resolveAttachmentCount
    by_cases hC : (onDisk fname && isImageName fname) = true
    · rw [if_pos hC]
      simp only [Bool.and_eq_true] at hC
      simp [hC]
    · rw [if_neg hC]
      simp only [Bool.and_eq_true] at hC
      simp [hC]
  · unfold resolveAttachmentCount resolveAttachment
    by_cases hC : (onDisk fname && isImageName fname) = true <;> simp [hC]
  · unfold attachMessage
    by_cases hE : (findAttachments m.text.data).isEmpty = true
    · have hE2 : ((findAttachments m.text.data).map
          (fun f => resolveAttachment onDisk ocr (mkStr f))).isEmpty = true := by
        rw [isEmpty_map_eq]; exact hE
      simp only [hE2, hE, if_true, ite_true]
    · have hE2 : ((findAttachments m.text.data).map
          (fun f => resolveAttachment onDisk ocr (mkStr f))).isEmpty = false := by
        rw [isEmpty_map_eq]; simpa using hE
      simp only [hE2, hE, Bool.false_eq_true, if_false, ite_false, List.map_map]
      apply List.map_congr_left
      intro f _
      exact resolveAttachment_filename onDisk ocr (mkStr f)

/-- Witness for C4: a present image file is OCRed, a non-image file is not. -/
theorem claim_C4_witness :
    (resolveAttachment (fun _ => true) (fun _ => "T") "a.jpg").ocr_text = "T"
    ∧ (resolveAttachment (fun _ => true) (fun _ => "T") "a.txt").ocr_text = ""
    ∧ (resolveAttachment (fun _ => false) (fun _ => "T") "a.jpg").ocr_text = "" := by
  refine ⟨?_, ?_, ?_⟩
  · exact (claim_C4 (fun _ => true) (fun _ => "T") "a.jpg"
      ⟨"", "", "", "", []⟩).2.1 rfl (by decide)
  · exact (claim_C4 (fun _ => true) (fun _ => "T") "a.txt"
      ⟨"", "", "", "", []⟩).2.2.1 (Or.inr (by decide))
  · exact (claim_C4 (fun _ => false) (fun _ => "T") "a.jpg"
      ⟨"", "", "", "", []⟩).2.2.1 (Or.inl rfl)

/-- Claim C5: the OCR adapter never fails outward — it returns the empty
string when the capability is missing or the engine raises, returns the
recognized text stripped on success, and its result is always already
stripped. -/
theorem claim_C5 :
    ∀ (available : Bool) (engine : String → Except String String) (path : String),
    (available = false → perform_ocr available engine path = "")
    ∧ (∀ e, engine path = Except.error e → perform_ocr available engine path = "")
    ∧ (∀ t, available = true → engine path = Except.ok t →
        perform_ocr available engine path = mkStr (pyStrip t.data))
    ∧ pyStrip (perform_ocr available engine path).data
        = (perform_ocr available engine path).data := by
  intro available engine path
  refine ⟨?_, ?_, ?_, ?_⟩
  · intro h
    simp [perform_ocr, h]
  · intro e h
    cases available with
    | false => simp [perform_ocr]
    | true => simp [perform_ocr, h]
  · intro t h1 h2
    simp [perform_ocr, h1, h2]
  · cases available with
    | false =>
      simp only [perform_ocr, if_true, ite_true]
      decide
    | true =>
      cases h : engine path with
      | ok t =>
        simp only [perform_ocr, Bool.true_eq_false, if_false, ite_false, h]
        exact pyStrip_self t.data
      | error e =>
        simp only [perform_ocr, Bool.true_eq_false, if_false, ite_false, h]
        decide

/-- Witness for C5: the three outcomes at concrete inputs. -/
theorem claim_C5_witness :
    perform_ocr false (fun _ => Except.ok "x") "p" = ""
    ∧ perform_ocr true (fun _ => Except.error "boom") "p" = ""
    ∧ perform_ocr true (fun _ => Except.ok "  hi  ") "p"
        = mkStr (pyStrip "  hi  ".data) := by
  refine ⟨?_, ?_, ?_⟩
  · exact (claim_C5 false (fun _ => Except.ok "x") "p").1 rfl
  · exact (claim_C5 true (fun _ => Except.error "boom") "p").2.1 "boom" rfl
  · exact (claim_C5 true (fun _ => Except.ok "  hi  ") "p").2.2.1 "  hi  " rfl rfl

/-- Claim C6: whenever a parsing run completes, the tabular output has one
row per message, except that an empty message list yields exactly the one
placeholder row of empty strings. -/
theorem claim_C6 :
    ∀ (onDisk : String → Bool) (ocr : String → String) (lines : List String)
      (msgs : List Message) (rows : List (List (String × String))),
    parse_chat onDisk ocr lines = some (msgs, rows) →
    (msgs = [] → rows = [emptyRow] ∧ rows.length = 1)
    ∧ (msgs ≠ [] → rows.length = msgs.length) := by
  intro onDisk ocr lines msgs rows h
  unfold parse_chat at h
  cases hs : segmentLines lines with
  | none => rw [hs] at h; simp at h
  | some segs =>
    rw [hs] at h
    simp only [Option.some.injEq, Prod.mk.injEq] at h
    obtain ⟨hm, hr⟩ := h
    constructor
    · intro hempty
      rw [← hr, hm, hempty]
      exact ⟨rfl, rfl⟩
    · intro hne
      rw [← hr, hm, finalTable_length]
      have : ¬ msgs.length = 0 := by
        intro h0
        exact hne (List.eq_nil_of_length_eq_zero h0)
      simp [this]

/-- Witness for C6: the empty run produces the placeholder row, and a
one-message run produces one row. -/
theorem claim_C6_witness :
    ([emptyRow] = [emptyRow] ∧ [emptyRow].length = 1)
    ∧ ([[("date", "2025-09-08"), ("time", "17:58"), ("sender", "J"),
         ("text", "x"), ("attachments", ""), ("ocr_text", "")]].length
        = [(⟨"2025-09-08", "17:58", "J", "x", []⟩ : Message)].length) := by
  constructor
  · exact (claim_C6 (fun _ => false) (fun _ => "") [] [] [emptyRow] (by decide)).1 rfl
  · exact (claim_C6 (fun _ => false) (fun _ => "") ["9/8/25, 5:58 PM - J: x"]
      [⟨"2025-09-08", "17:58", "J", "x", []⟩]
      [[("date", "2025-09-08"), ("time", "17:58"), ("sender", "J"),
        ("text", "x"), ("attachments", ""), ("ocr_text", "")]]
      (by decide)).2 (by decide)

/-- Counterexample to claim C7 as stated: continuation lines are appended
verbatim, so a trailing space on the second line survives into the sealed
message's text, which is therefore not trimmed. -/
theorem claim_C7_counterexample :
    segmentLines ["9/8/25, 5:58 PM - John: Hi", "world "]
      = some [⟨"2025-09-08", "17:58", "John", "Hi\nworld ", []⟩]
    ∧ pyStrip "Hi\nworld ".data ≠ "Hi\nworld ".data := by
  exact ⟨by decide, by decide⟩

/-- Claim C7 as amended: the body captured from a header line is stripped
when the message is created (so single-line messages carry trimmed text),
but a continuation line is appended verbatim after the internal newline,
so multi-line texts may keep leading or trailing whitespace coming from
continuation lines. -/
theorem claim_C7_amended :
    (∀ (st : Option Message × List Message) (line : String)
        (d t s b : List Char) (m : Message) (out : List Message),
      matchRegularL line.data = some (d, t, s, b) →
      chatStep st line = some (some m, out) →
      m.text = mkStr (pyStrip b) ∧ pyStrip m.text.data = m.text.data)
    ∧ (∀ (m : Message) (out : List Message) (line : String),
      matchRegularL line.data = none → matchSystemL line.data = none →
      chatStep (some m, out) line
        = some (some { m with text := m.text ++ "\n" ++ line }, out)) := by
  constructor
  · intro st line d t s b m out hr h
    cases st with
    | mk cur outs =>
      simp only [chatStep, hr] at h
      cases hd : convert_date (mkStr d) with
      | none => rw [hd] at h; simp at h
      | some dI =>
        rw [hd] at h
        cases ht : convert_time (mkStr t) with
        | none => rw [ht] at h; simp at h
        | some tI =>
          rw [ht] at h
          simp only [Option.some.injEq, Prod.mk.injEq] at h
          obtain ⟨hm, _⟩ := h
          constructor
          · rw [← hm]
          · rw [← hm]
            exact pyStrip_self b
  · intro m out line h1 h2
    simp [chatStep, h1, h2]

/-- Witness for C7: the creation-trim clause at a concrete line. -/
theorem claim_C7_witness :
    (⟨"2025-09-08", "17:58", "John", "x", []⟩ : Message).text
        = mkStr (pyStrip "x".data)
    ∧ pyStrip (⟨"2025-09-08", "17:58", "John", "x", []⟩ : Message).text.data
        = (⟨"2025-09-08", "17:58", "John", "x", []⟩ : Message).text.data := by
  exact claim_C7_amended.1 (none, []) "9/8/25, 5:58 PM - John: x"
    "9/8/25".data "5:58 PM".data "John".data "x".data
    ⟨"2025-09-08", "17:58", "John", "x", []⟩ [] (by decide) (by decide)

/-- Counterexample to claim C8 as stated: `lstrip('-')` removes every
contiguous leading hyphen, not at most one, so `Status: --Value` yields
`"Value"` where the claim demands `"-Value"`. -/
theorem claim_C8_counterexample :
    extract_details "Status: --Value" = [("status", "Value")]
    ∧ ("Value" : String) ≠ "-Value" := by
  exact ⟨by decide, by decide⟩

/-- Claim C8 as amended: the value part of every classified line is the
raw value trimmed, with ALL contiguous leading hyphens removed and the
result trimmed again (so the spaces after the hyphens also go); in
particular `Key: -Value` still yields `"Value"`. -/
theorem claim_C8_amended :
    (∀ (seg kp vp : List Char) (k v : String),
      splitAtFirstColon seg = some (kp, vp) →
      lineToKV seg = some (k, v) →
      v = mkStr (pyStrip ((pyStrip vp).dropWhile (fun c => c = '-'))))
    ∧ extract_details "Status: -Value" = [("status", "Value")] := by
  constructor
  · intro seg kp vp k v hsplit hkv
    simp only [lineToKV, hsplit] at hkv
    split at hkv
    next => simp at hkv
    next =>
      cases hr : ruleKey (normKey (pyStrip kp)) with
      | none => rw [hr] at hkv; simp at hkv
      | some canonical =>
        rw [hr] at hkv
        simp only [Option.some.injEq, Prod.mk.injEq] at hkv
        exact hkv.2.symm
  · decide

/-- Witness for C8: the amended value rule at the concrete line
`"Status: -Value"`. -/
theorem claim_C8_witness :
    ("Value" : String)
      = mkStr (pyStrip ((pyStrip " -Value".data).dropWhile (fun c => c = '-'))) := by
  exact claim_C8_amended.1 "Status: -Value".data "Status".data " -Value".data
    "status" "Value" (by decide) (by decide)

/-- Counterexample to claim C9 as stated: the attachment pass runs after
every message is sealed, and it overwrites the `attachments` field of a
sealed message that mentions a media filename. -/
theorem claim_C9_counterexample :
    segmentLines ["9/8/25, 5:58 PM - John: see IMG-1.jpg"]
      = some [⟨"2025-09-08", "17:58", "John", "see IMG-1.jpg", []⟩]
    ∧ attachPass (fun _ => false) (fun _ => "")
        [⟨"2025-09-08", "17:58", "John", "see IMG-1.jpg", []⟩]
      = [⟨"2025-09-08", "17:58", "John", "see IMG-1.jpg", [⟨"IMG-1.jpg", ""⟩]⟩]
    ∧ ([] : List Attachment) ≠ [⟨"IMG-1.jpg", ""⟩] := by
  exact ⟨by decide, by decide, by decide⟩

/-- Claim C9 as amended: after sealing, the `date`, `time`, `sender` and
`text` fields are never changed by any later stage; only the
`attachments` field is written, once, by the attachment pass, which also
preserves the number and order of the messages. -/
theorem claim_C9_amended :
    ∀ (onDisk : String → Bool) (ocr : String → String) (m : Message)
      (msgs : List Message) (i : Nat),
    (attachMessage onDisk ocr m).date = m.date
    ∧ (attachMessage onDisk ocr m).time = m.time
    ∧ (attachMessage onDisk ocr m).sender = m.sender
    ∧ (attachMessage onDisk ocr m).text = m.text
    ∧ (attachPass onDisk ocr msgs).length = msgs.length
    ∧ ((attachPass onDisk ocr msgs)[i]?).map
          (fun mm => (mm.date, mm.time, mm.sender, mm.text))
        = (msgs[i]?).map (fun mm => (mm.date, mm.time, mm.sender, mm.text)) := by
  intro onDisk ocr m msgs i
  have hfields : ∀ mm : Message,
      (attachMessage onDisk ocr mm).date = mm.date
      ∧ (attachMessage onDisk ocr mm).time = mm.time
      ∧ (attachMessage onDisk ocr mm).sender = mm.sender
      ∧ (attachMessage onDisk ocr mm).text = mm.text := by
    intro mm
    dsimp only [attachMessage]
    by_cases hE : ((findAttachments mm.text.data).map
        (fun f => resolveAttachment onDisk ocr (mkStr f))).isEmpty = true
    · simp [hE]
    · simp [hE]
  refine ⟨(hfields m).1, (hfields m).2.1, (hfields m).2.2.1, (hfields m).2.2.2,
    ?_, ?_⟩
  · unfold attachPass
    exact List.length_map _ _
  · unfold attachPass
    rw [List.getElem?_map]
    cases msgs[i]? with
    | none => rfl
    | some mm =>
      have h4 := hfields mm
      simp [h4.1, h4.2.1, h4.2.2.1, h4.2.2.2]

/-- Counterexample to claim C10 as stated: on a line whose text portion
begins with the colon itself (one space after the hyphen), the authored
grammar cannot place a non-empty sender, so the line parses as a system
line and the sender becomes the sentinel `System`. -/
theorem claim_C10_counterexample :
    matchRegularL "9/8/25, 5:58 PM - : hello".data = none
    ∧ matchSystemL "9/8/25, 5:58 PM - : hello".data
        = some ("9/8/25".data, "5:58 PM".data, ": hello".data)
    ∧ segmentLines ["9/8/25, 5:58 PM - : hello"]
        = some [⟨"2025-09-08", "17:58", "System", ": hello", []⟩] := by
  exact ⟨by decide, by decide, by decide⟩

/-- Claim C10 as amended: a line of system shape whose text portion has its
first colon at a position other than the very start parses as authored,
with sender the text before that colon and body the remainder after it
(leading whitespace dropped; the segmenter then trims both); the concrete
example shows the authored classification with the first colon winning. -/
theorem claim_C10_amended :
    (∀ (line : String) (d t txt before after : List Char),
      matchSystemL line.data = some (d, t, txt) →
      splitAtFirstColon txt = some (before, after) →
      1 ≤ before.length →
      matchRegularL line.data = some (d, t, before, after.dropWhile isPySpace))
    ∧ segmentLines ["9/8/25, 5:58 PM - John says: hi: there"]
        = some [⟨"2025-09-08", "17:58", "John says", "hi: there", []⟩] := by
  constructor
  · intro line d t txt before after h1 h2 h3
    cases hm : matchHeader line.data with
    | none => simp [matchSystemL, hm] at h1
    | some trip =>
      obtain ⟨dh, th, rest⟩ := trip
      simp only [matchSystemL, hm] at h1
      by_cases hw : (rest.takeWhile isPySpace).length = 0
      · rw [if_pos hw] at h1; simp at h1
      · rw [if_neg hw] at h1
        simp only [Option.some.injEq, Prod.mk.injEq] at h1
        obtain ⟨hd2, ht2, htxt⟩ := h1
        simp only [matchRegularL, hm, if_neg hw, htxt, h2, if_pos h3, hd2, ht2]
  · decide

/-- Witness for C10: the authored reclassification at a concrete line. -/
theorem claim_C10_witness :
    matchRegularL "9/8/25, 5:58 PM - John: hi".data
      = some ("9/8/25".data, "5:58 PM".data, "John".data,
              (" hi".data).dropWhile isPySpace) := by
  exact claim_C10_amended.1 "9/8/25, 5:58 PM - John: hi"
    "9/8/25".data "5:58 PM".data "John: hi".data "John".data " hi".data
    (by decide) (by decide) (by decide)

end WhatsAppParse
